import Mathlib

/-!
Shallow embedding of `src/deploy.py` (harold's deploy monitor plugin).

Timestamps and progress indices are rationals (`ℚ`): the Python code uses
`datetime` values and `float` indices; every claim under study uses values
exactly representable in binary floating point, so `ℚ` arithmetic agrees with
the source on all inputs considered.

The Twisted reactor is modelled explicitly: `MonitorState.timers` is the pool
of `DelayedCall`s ever created; `reactor.callLater(ttl, cb, id)` appends a
timer firing at `now + ttl` and returns its index.  Twisted's
`DelayedCall.delay(secondsLater)` adds `secondsLater` to the call's *current*
scheduled fire time (`self.time += secondsLater`), `cancel` marks it
cancelled, and `active()` is true iff neither cancelled nor called; firing a
timer marks it called and runs its callback (`_remove_deploy(id)`).

Outbound sink writes (`irc.bot.send_message` / `set_topic`) are logged
structurally in `messages` / `topics`: the string formatting itself
(`strftime`, `pretty_and_accurate_time_span`) lives outside this module and
carries no claim-relevant content, so a message is recorded as its
constructor with the exact data the format string consumes.
-/

structure DeployConfig where
  channel : String
  deploy_ttl : ℚ
deriving DecidableEq

/-- One Twisted `DelayedCall`, as created by
`reactor.callLater(self.config.deploy_ttl, self._remove_deploy, id)`:
it remembers the captured `id` argument, its scheduled fire time, and its
cancelled/called flags. -/
structure Timer where
  deployId : String
  time : ℚ
  cancelled : Bool
  called : Bool
deriving DecidableEq

/-- `IDelayedCall.active()`: not yet called and not cancelled. -/
def Timer.active (t : Timer) : Bool := !t.cancelled && !t.called

/-- The `OngoingDeploy` entity, with the fields `onPushBegan` assembles.
`where` is a Lean keyword, so the source's `where`/`completion` pair is
`whereHost`/`completion` here; `expirator` is an index into the timer pool. -/
structure OngoingDeploy where
  id : String
  when : ℚ
  who : String
  args : String
  log_path : String
  quadrant : Nat
  whereHost : Option String
  completion : Option ℚ
  host_count : Nat
  expirator : Nat
deriving DecidableEq

/-- A `send_message` sink write, recorded structurally. -/
inductive Msg
  | started (who id args : String)
  | progressPct (who id : String) (pct : Nat)
  | complete (who id : String) (took : ℚ)
  | aborted (who id reason : String)
deriving DecidableEq

/-- A `set_topic` sink write, recorded structurally (`_update_topic`). -/
inductive TopicText
  | restored (t : String)
  | fallback
  | single (nick who : String) (whenAt : ℚ) (args : String)
  | multi (nick : String) (count : Nat) (earliest : ℚ)
deriving DecidableEq

/-- One reply line of the `status` command. -/
inductive StatusLine
  | noActive (sender_nick : String)
  | deployLine (sender_nick who id : String) (suffix : Option (String × ℚ))
      (whenAt : ℚ) (args log_path : String)
deriving DecidableEq

/-- The whole `DeployMonitor` state plus the reactor's timer pool and the log
of sink writes. -/
structure MonitorState where
  config : DeployConfig
  nick : String
  deploys : List (String × OngoingDeploy)
  timers : List Timer
  topic_to_restore : Option String
  messages : List Msg
  topics : List TopicText
deriving DecidableEq

/-- `self.deploys.get(id)`: first binding for `id`, if any. -/
def dictGet : List (String × OngoingDeploy) → String → Option OngoingDeploy
  | [], _ => none
  | (k, v) :: rest, id => if k = id then some v else dictGet rest id

/-- `self.deploys[id] = deploy`: replace the binding in place, else append. -/
def dictSet : List (String × OngoingDeploy) → String → OngoingDeploy →
    List (String × OngoingDeploy)
  | [], id, v => [(id, v)]
  | (k, w) :: rest, id, v =>
      if k = id then (k, v) :: rest else (k, w) :: dictSet rest id v

/-- `del self.deploys[id]`: drop the binding for `id`. -/
def dictDel : List (String × OngoingDeploy) → String →
    List (String × OngoingDeploy)
  | [], _ => []
  | (k, w) :: rest, id => if k = id then rest else (k, w) :: dictDel rest id

/-- `if deploy.expirator.active(): deploy.expirator.cancel()`. -/
def cancelIfActive (ts : List Timer) (k : Nat) : List Timer :=
  match ts.get? k with
  | some t => if t.active then ts.set k { t with cancelled := true } else ts
  | none => ts

/-- `DelayedCall.delay(d)`: postpone the scheduled fire time by `d`
(Twisted adds `d` to the current fire time, it does not reset from now). -/
def timerDelay (ts : List Timer) (k : Nat) (d : ℚ) : List Timer :=
  match ts.get? k with
  | some t => ts.set k { t with time := t.time + d }
  | none => ts

/-- Python truthiness of an optional string: `None` and `""` are falsy. -/
def strTruthy : Option String → Bool
  | none => false
  | some s => !(s == "")

/-- Earliest `when` among deploys: `min(d.when for d in ...)`. -/
def minWhen : List (String × OngoingDeploy) → ℚ
  | [] => 0
  | (_, d) :: rest => rest.foldl (fun acc p => min acc p.2.when) d.when

/-- The topic string `_update_topic` computes from the registry snapshot. -/
def computeTopic (s : MonitorState) : TopicText :=
  if s.deploys.length = 0 then
    match s.topic_to_restore with
    | some t => if t = "" then TopicText.fallback else TopicText.restored t
    | none => TopicText.fallback
  else if s.deploys.length = 1 then
    match s.deploys with
    | (_, d) :: _ => TopicText.single s.nick d.who d.when d.args
    | [] => TopicText.fallback
  else
    TopicText.multi s.nick s.deploys.length (minWhen s.deploys)

/-- `_update_topic`: compute the topic and write it to the sink. -/
def _update_topic (s : MonitorState) : MonitorState :=
  { s with topics := s.topics ++ [computeTopic s] }

/-- `_topic_changed`: remember an externally observed topic unless it is ours. -/
def _topic_changed (s : MonitorState) (channel topic : String) : MonitorState :=
  if channel ≠ s.config.channel then s
  else if topic.startsWith ("<" ++ s.nick ++ ">") then s
  else { s with topic_to_restore := some topic }

/-- Body of `_remove_deploy` once the deploy has been found: cancel its timer
if still active, delete the binding, return `(who, now - when)`. -/
def removeCore (s : MonitorState) (id : String) (now : ℚ)
    (deploy : OngoingDeploy) : MonitorState × Option (String × ℚ) :=
  ({ s with timers := cancelIfActive s.timers deploy.expirator,
            deploys := dictDel s.deploys id },
   some (deploy.who, now - deploy.when))

/-- `_remove_deploy(id)`: returns `(None, None)` when `id` is absent. -/
def _remove_deploy (s : MonitorState) (id : String) (now : ℚ) :
    MonitorState × Option (String × ℚ) :=
  match dictGet s.deploys id with
  | none => (s, none)
  | some deploy => removeCore s id now deploy

/-- `onPushBegan`: build the entity, schedule its TTL timer, store it
(replacing any live entity with the same id, without touching the old
entity's timer), recompute the topic, send the "started" message. -/
def onPushBegan (s : MonitorState) (now : ℚ) (id who args log_path : String)
    (count : Nat) : MonitorState :=
  let deploy : OngoingDeploy :=
    { id := id, when := now, who := who, args := args, log_path := log_path,
      quadrant := 1, whereHost := none, completion := none,
      host_count := count, expirator := s.timers.length }
  let s1 : MonitorState :=
    { s with
      timers := s.timers ++
        [{ deployId := id, time := now + s.config.deploy_ttl,
           cancelled := false, called := false }],
      deploys := dictSet s.deploys id deploy }
  let s2 := _update_topic s1
  { s2 with messages := s2.messages ++ [Msg.started who id args] }

/-- Body of `onPushProgress` once the deploy has been found: postpone the
expiry timer by `deploy_ttl`, record host and index, and, for pushes of at
least 8 hosts past the next quadrant threshold, announce that single
threshold and advance `quadrant` by one (`.25` is exactly `1/4`). -/
def progressCore (s : MonitorState) (id host : String) (index : ℚ)
    (deploy : OngoingDeploy) : MonitorState :=
  let d1 : OngoingDeploy :=
    { deploy with completion := some index, whereHost := some host }
  let s1 : MonitorState :=
    { s with timers := timerDelay s.timers deploy.expirator s.config.deploy_ttl,
             deploys := dictSet s.deploys id d1 }
  if d1.host_count < 8 then s1
  else if index / (d1.host_count : ℚ) < (d1.quadrant : ℚ) * (1/4) then s1
  else
    { s1 with
      messages := s1.messages ++ [Msg.progressPct d1.who id (d1.quadrant * 25)],
      deploys := dictSet s1.deploys id { d1 with quadrant := d1.quadrant + 1 } }

/-- `onPushProgress`: no-op for an unknown id. -/
def onPushProgress (s : MonitorState) (id host : String) (index : ℚ) :
    MonitorState :=
  match dictGet s.deploys id with
  | none => s
  | some deploy => progressCore s id host index deploy

/-- `onPushEnded`: remove, and unless `who` is falsy send the completion
message and recompute the topic. -/
def onPushEnded (s : MonitorState) (now : ℚ) (id : String) : MonitorState :=
  match _remove_deploy s id now with
  | (s1, none) => s1
  | (s1, some (who, duration)) =>
      if who = "" then s1
      else
        _update_topic
          { s1 with messages := s1.messages ++ [Msg.complete who id duration] }

/-- `onPushAborted`: remove, and unless `who` is falsy send the aborted
message and recompute the topic (the duration is discarded). -/
def onPushAborted (s : MonitorState) (now : ℚ) (id reason : String) :
    MonitorState :=
  match _remove_deploy s id now with
  | (s1, none) => s1
  | (s1, some (who, _)) =>
      if who = "" then s1
      else
        _update_topic
          { s1 with messages := s1.messages ++ [Msg.aborted who id reason] }

/-- The reactor firing pending timer `k` at time `now`: mark it called and run
its callback `_remove_deploy(deployId)` (the returned pair is discarded). -/
def fireTimer (s : MonitorState) (k : Nat) (now : ℚ) : MonitorState :=
  match s.timers.get? k with
  | none => s
  | some t =>
      if t.active then
        let s1 : MonitorState :=
          { s with timers := s.timers.set k { t with called := true } }
        (_remove_deploy s1 t.deployId now).1
      else s

/-- One status reply line for a deploy.  The `(which is on ... -- ...% done)`
suffix is emitted only when `d.where` is truthy; computing it evaluates
`float(d.completion) / d.host_count`, which raises `TypeError` when
`completion` is `None` and `ZeroDivisionError` when `host_count` is zero. -/
def statusLineFor (sender_nick : String) (d : OngoingDeploy) :
    Except String StatusLine :=
  match d.whereHost with
  | some w =>
      if w = "" then
        Except.ok (StatusLine.deployLine sender_nick d.who d.id none d.when
          d.args d.log_path)
      else
        match d.completion with
        | none => Except.error "TypeError"
        | some c =>
            if d.host_count = 0 then Except.error "ZeroDivisionError"
            else
              Except.ok (StatusLine.deployLine sender_nick d.who d.id
                (some (w, c / (d.host_count : ℚ) * 100)) d.when d.args
                d.log_path)
  | none =>
      Except.ok (StatusLine.deployLine sender_nick d.who d.id none d.when
        d.args d.log_path)

/-- Stable insertion keeping ascending `when` order (Python's `sorted` with
`key=lambda d: d.when` is a stable ascending sort). -/
def insertByWhen : List OngoingDeploy → OngoingDeploy → List OngoingDeploy
  | [], d => [d]
  | e :: rest, d =>
      if e.when ≤ d.when then e :: insertByWhen rest d else d :: e :: rest

/-- `sorted(self.deploys.values(), key=lambda d: d.when)`. -/
def sortByWhen (l : List OngoingDeploy) : List OngoingDeploy :=
  l.foldl insertByWhen []

/-- Evaluate the per-deploy line for each element in order, propagating the
first raised exception (the Python loop raises at the first bad deploy). -/
def mapExcept (f : OngoingDeploy → Except String StatusLine) :
    List OngoingDeploy → Except String (List StatusLine)
  | [] => Except.ok []
  | a :: l =>
      match f a with
      | Except.error e => Except.error e
      | Except.ok b =>
          match mapExcept f l with
          | Except.error e => Except.error e
          | Except.ok bs => Except.ok (b :: bs)

/-- The `status` command: nothing for a foreign channel; a "no active pushes"
line when the registry is empty; one line per deploy in ascending `when`
order.  The reply lines are the sink writes the command performs. -/
def status (s : MonitorState) (sender channel : String) :
    Except String (List StatusLine) :=
  if channel ≠ s.config.channel then Except.ok []
  else
    let sender_nick := sender.takeWhile (fun c => c != '!')
    let headerLines :=
      if s.deploys.length = 0 then [StatusLine.noActive sender_nick] else []
    match mapExcept (statusLineFor sender_nick)
        (sortByWhen (s.deploys.map Prod.snd)) with
    | Except.error e => Except.error e
    | Except.ok lines => Except.ok (headerLines ++ lines)

/-- Number of pending (uncancelled, unfired) expiry timers whose callback
targets deploy `id`. -/
def pendingTimersFor (s : MonitorState) (id : String) : Nat :=
  (s.timers.filter (fun t => t.deployId == id && t.active)).length

/-- A fresh monitor: empty registry, no timers, no sink writes. -/
def initialState (cfg : DeployConfig) (nick : String) : MonitorState :=
  { config := cfg, nick := nick, deploys := [], timers := [],
    topic_to_restore := none, messages := [], topics := [] }

/-- Number of `progressPct` threshold announcements in a sink log. -/
def countAnnouncements (msgs : List Msg) : Nat :=
  (msgs.filter fun m =>
    match m with
    | Msg.progressPct _ _ _ => true
    | _ => false).length

/-! ### Concrete scenarios used to settle the claims -/

def cfg0 : DeployConfig := { channel := "#chan", deploy_ttl := 60 }

def harold0 : MonitorState := initialState cfg0 "harold"

/-- State after `begin("d1", "alice", "-a", "/log1", 10)` at time 0. -/
def began_s : MonitorState := onPushBegan harold0 0 "d1" "alice" "-a" "/log1" 10

/-- The entity `began_s` holds for `"d1"`. -/
def began_d : OngoingDeploy :=
  { id := "d1", when := 0, who := "alice", args := "-a", log_path := "/log1",
    quadrant := 1, whereHost := none, completion := none, host_count := 10,
    expirator := 0 }

/-- The expiry timer `began_s` scheduled (fires at 0 + 60). -/
def began_tm : Timer :=
  { deployId := "d1", time := 60, cancelled := false, called := false }

/-- A second `begin` for the already-live id `"d1"` at time 10. -/
def c1_s2 : MonitorState := onPushBegan began_s 10 "d1" "bob" "-b" "/log2" 10

/-- `began_s` followed by one progress call at index 1. -/
def c3_s : MonitorState := onPushProgress began_s "d1" "h1" 1

/-- The entity `c3_s` holds for `"d1"`. -/
def c3_d : OngoingDeploy :=
  { began_d with whereHost := some "h1", completion := some 1 }

/-- `began_s` followed by progress calls at indices 0, 2, 5, 8, 10. -/
def c4_run : MonitorState :=
  onPushProgress (onPushProgress (onPushProgress (onPushProgress
    (onPushProgress began_s "d1" "h" 0) "d1" "h" 2) "d1" "h" 5)
    "d1" "h" 8) "d1" "h" 10

/-- State after a begin whose initiator string is empty. -/
def emptyWho_s : MonitorState := onPushBegan harold0 0 "d1" "" "-a" "/log1" 10

/-- The entity `emptyWho_s` holds for `"d1"`. -/
def emptyWho_d : OngoingDeploy := { began_d with who := "" }

/-- A begin with `hostCount = 0` (allowed: a non-negative integer). -/
def c8_s1 : MonitorState := onPushBegan harold0 0 "d1" "alice" "-a" "/log1" 0

/-- `c8_s1` after a progress event, so `where` is set and `host_count = 0`. -/
def c8_s2 : MonitorState := onPushProgress c8_s1 "d1" "h1" 1

/-- hostCount 10, progress indices 3, 5, 8, 10: four announcements fire and
`quadrant` reaches 5. -/
def c9_b : MonitorState :=
  onPushProgress (onPushProgress (onPushProgress (onPushProgress
    (onPushBegan harold0 0 "d9" "alice" "-a" "/l" 10)
    "d9" "h" 3) "d9" "h" 5) "d9" "h" 8) "d9" "h" 10

/-- The entity `c9_b` holds for `"d9"` (quadrant already 5). -/
def c9_d : OngoingDeploy :=
  { id := "d9", when := 0, who := "alice", args := "-a", log_path := "/l",
    quadrant := 5, whereHost := some "h", completion := some 10,
    host_count := 10, expirator := 0 }

/-! ### Helper lemmas about the registry and the timer pool -/

theorem dictGet_dictSet_self (l : List (String × OngoingDeploy)) (id : String)
    (v : OngoingDeploy) : dictGet (dictSet l id v) id = some v := by
  induction l with
  | nil => simp [dictGet, dictSet]
  | cons p rest ih =>
      obtain ⟨k, w⟩ := p
      by_cases h : k = id <;> simp [dictGet, dictSet, h, ih]

theorem dictGet_eq_none_of_not_mem (l : List (String × OngoingDeploy))
    (id : String) (h : id ∉ l.map Prod.fst) : dictGet l id = none := by
  induction l with
  | nil => rfl
  | cons p rest ih =>
      obtain ⟨k, w⟩ := p
      simp only [List.map_cons, List.mem_cons] at h
      push_neg at h
      have hk : ¬ k = id := fun hk => h.1 hk.symm
      simp [dictGet, hk, ih h.2]

theorem dictDel_of_dictGet_none (l : List (String × OngoingDeploy))
    (id : String) (h : dictGet l id = none) : dictDel l id = l := by
  induction l with
  | nil => rfl
  | cons p rest ih =>
      obtain ⟨k, w⟩ := p
      by_cases hk : k = id
      · simp [dictGet, hk] at h
      · simp only [dictGet, if_neg hk] at h
        simp [dictDel, hk, ih h]

theorem dictGet_dictDel_self (l : List (String × OngoingDeploy)) (id : String)
    (h : (l.map Prod.fst).Nodup) : dictGet (dictDel l id) id = none := by
  induction l with
  | nil => rfl
  | cons p rest ih =>
      obtain ⟨k, w⟩ := p
      simp only [List.map_cons, List.nodup_cons] at h
      by_cases hk : k = id
      · subst hk
        simp only [dictDel, if_pos rfl]
        exact dictGet_eq_none_of_not_mem rest k h.1
      · simp [dictDel, dictGet, hk, ih h.2]

theorem listGet?_lt {α : Type} (l : List α) (i : Nat) (a : α)
    (h : l.get? i = some a) : i < l.length := by
  induction l generalizing i with
  | nil => simp [List.get?] at h
  | cons b rest ih =>
      cases i with
      | zero => simp
      | succ j =>
          simp only [List.get?] at h
          exact Nat.succ_lt_succ (ih j h)

theorem listGet?_set_self {α : Type} (l : List α) (i : Nat) (a : α)
    (h : i < l.length) : (l.set i a).get? i = some a := by
  induction l generalizing i with
  | nil => simp at h
  | cons b rest ih =>
      cases i with
      | zero => rfl
      | succ j =>
          simp only [List.length_cons, Nat.succ_lt_succ_iff] at h
          simpa [List.set, List.get?] using ih j h

theorem timerDelay_get (ts : List Timer) (k : Nat) (d : ℚ) (t : Timer)
    (h : ts.get? k = some t) :
    (timerDelay ts k d).get? k = some { t with time := t.time + d } := by
  unfold timerDelay
  rw [h]
  exact listGet?_set_self ts k _ (listGet?_lt ts k t h)

theorem cancelIfActive_get (ts : List Timer) (k : Nat) (t : Timer)
    (ht : (cancelIfActive ts k).get? k = some t) : t.active = false := by
  unfold cancelIfActive at ht
  split at ht
  · rename_i t0 heq
    split at ht
    · rw [listGet?_set_self ts k _ (listGet?_lt ts k t0 heq)] at ht
      cases ht
      simp [Timer.active]
    · rename_i ha
      rw [heq] at ht
      cases ht
      simpa using ha
  · rename_i heq
    rw [heq] at ht
    exact Option.noConfusion ht

/-! ### Lemmas about the progress path -/

theorem onPushProgress_of_found (s : MonitorState) (id host : String)
    (index : ℚ) (d : OngoingDeploy) (hd : dictGet s.deploys id = some d) :
    onPushProgress s id host index = progressCore s id host index d := by
  unfold onPushProgress
  rw [hd]

theorem progressCore_timers (s : MonitorState) (id host : String) (index : ℚ)
    (d : OngoingDeploy) :
    (progressCore s id host index d).timers =
      timerDelay s.timers d.expirator s.config.deploy_ttl := by
  unfold progressCore
  dsimp only
  split
  · rfl
  · split <;> rfl

theorem progressCore_topics (s : MonitorState) (id host : String) (index : ℚ)
    (d : OngoingDeploy) :
    (progressCore s id host index d).topics = s.topics := by
  unfold progressCore
  dsimp only
  split
  · rfl
  · split <;> rfl

theorem progressCore_noemit (s : MonitorState) (id host : String) (index : ℚ)
    (d : OngoingDeploy)
    (h : d.host_count < 8 ∨
      index / (d.host_count : ℚ) < (d.quadrant : ℚ) * (1/4)) :
    (progressCore s id host index d).messages = s.messages ∧
    dictGet (progressCore s id host index d).deploys id =
      some { d with completion := some index, whereHost := some host } := by
  unfold progressCore
  rcases h with h8 | hq
  · rw [if_pos h8]
    exact ⟨rfl, dictGet_dictSet_self s.deploys id _⟩
  · by_cases h8 : d.host_count < 8
    · rw [if_pos h8]
      exact ⟨rfl, dictGet_dictSet_self s.deploys id _⟩
    · rw [if_neg h8, if_pos hq]
      exact ⟨rfl, dictGet_dictSet_self s.deploys id _⟩

theorem progressCore_emit (s : MonitorState) (id host : String) (index : ℚ)
    (d : OngoingDeploy) (h8 : ¬ d.host_count < 8)
    (hq : ¬ index / (d.host_count : ℚ) < (d.quadrant : ℚ) * (1/4)) :
    (progressCore s id host index d).messages =
      s.messages ++ [Msg.progressPct d.who id (d.quadrant * 25)] ∧
    dictGet (progressCore s id host index d).deploys id =
      some { d with completion := some index, whereHost := some host,
                    quadrant := d.quadrant + 1 } := by
  unfold progressCore
  rw [if_neg h8, if_neg hq]
  exact ⟨rfl, dictGet_dictSet_self _ id _⟩

/-! ### Lemmas about removal and expiry -/

theorem _remove_deploy_messages (s : MonitorState) (id : String) (now : ℚ) :
    (_remove_deploy s id now).1.messages = s.messages := by
  unfold _remove_deploy
  cases h : dictGet s.deploys id <;> simp [removeCore]

theorem _remove_deploy_topics (s : MonitorState) (id : String) (now : ℚ) :
    (_remove_deploy s id now).1.topics = s.topics := by
  unfold _remove_deploy
  cases h : dictGet s.deploys id <;> simp [removeCore]

theorem _remove_deploy_deploys (s : MonitorState) (id : String) (now : ℚ) :
    (_remove_deploy s id now).1.deploys = dictDel s.deploys id := by
  unfold _remove_deploy
  cases h : dictGet s.deploys id with
  | none => simpa using (dictDel_of_dictGet_none s.deploys id h).symm
  | some d => simp [removeCore]

/-! ### Lemmas about the status query -/

theorem mem_insertByWhen (acc : List OngoingDeploy) (d a : OngoingDeploy)
    (h : a ∈ insertByWhen acc d) : a ∈ acc ∨ a = d := by
  induction acc with
  | nil => simpa [insertByWhen] using h
  | cons e rest ih =>
      unfold insertByWhen at h
      split at h
      · rcases List.mem_cons.mp h with h1 | h1
        · exact Or.inl (List.mem_cons.mpr (Or.inl h1))
        · rcases ih h1 with h2 | h2
          · exact Or.inl (List.mem_cons.mpr (Or.inr h2))
          · exact Or.inr h2
      · rcases List.mem_cons.mp h with h1 | h1
        · exact Or.inr h1
        · exact Or.inl h1

theorem mem_foldl_insertByWhen (l acc : List OngoingDeploy)
    (a : OngoingDeploy) (h : a ∈ l.foldl insertByWhen acc) :
    a ∈ acc ∨ a ∈ l := by
  induction l generalizing acc with
  | nil => exact Or.inl h
  | cons e rest ih =>
      rcases ih (insertByWhen acc e) h with h1 | h1
      · rcases mem_insertByWhen acc e a h1 with h2 | h2
        · exact Or.inl h2
        · exact Or.inr (List.mem_cons.mpr (Or.inl h2))
      · exact Or.inr (List.mem_cons.mpr (Or.inr h1))

theorem mem_of_mem_sortByWhen (l : List OngoingDeploy) (a : OngoingDeploy)
    (h : a ∈ sortByWhen l) : a ∈ l := by
  rcases mem_foldl_insertByWhen l [] a h with h1 | h1
  · simp at h1
  · exact h1

theorem statusLineFor_ok (sender_nick : String) (d : OngoingDeploy)
    (h : strTruthy d.whereHost = true → d.completion ≠ none ∧ d.host_count ≠ 0) :
    ∃ b, statusLineFor sender_nick d = Except.ok b := by
  unfold statusLineFor
  cases hw : d.whereHost with
  | none => exact ⟨_, rfl⟩
  | some w =>
      dsimp only
      by_cases hw0 : w = ""
      · rw [if_pos hw0]
        exact ⟨_, rfl⟩
      · have ht : strTruthy d.whereHost = true := by
          rw [hw]
          simpa [strTruthy] using hw0
        obtain ⟨hc, hn⟩ := h ht
        rw [if_neg hw0]
        cases hcomp : d.completion with
        | none => exact absurd hcomp hc
        | some c =>
            dsimp only
            rw [if_neg hn]
            exact ⟨_, rfl⟩

theorem mapExcept_ok (f : OngoingDeploy → Except String StatusLine)
    (l : List OngoingDeploy)
    (h : ∀ a ∈ l, ∃ b, f a = Except.ok b) :
    ∃ bs, mapExcept f l = Except.ok bs := by
  induction l with
  | nil => exact ⟨[], rfl⟩
  | cons a rest ih =>
      obtain ⟨b, hb⟩ := h a (List.mem_cons_self a rest)
      obtain ⟨bs, hbs⟩ := ih (fun x hx => h x (List.mem_cons_of_mem a hx))
      exact ⟨b :: bs, by simp [mapExcept, hb, hbs]⟩

/-! ### Claim theorems -/

/-- C1: the claim says a begin for an already-live id cancels the old
entity's timer before installing the new one, so that each live deploy has
exactly one pending expiry timer.  The code does not: after a second begin
for `"d1"`, two pending timers target `"d1"`, and when the stale timer fires
at its original deadline (t = 60) it silently removes the replacement deploy
even though the replacement was begun at t = 10 and its own TTL runs to 70. -/
theorem c1_duplicate_begin_duplicate_timers :
    pendingTimersFor c1_s2 "d1" = 2 ∧
    dictGet (fireTimer c1_s2 0 60).deploys "d1" = none := by
  constructor <;>
    norm_num [c1_s2, began_s, harold0, initialState, cfg0, onPushBegan,
      _update_topic, computeTopic, minWhen, dictSet, dictGet, dictDel,
      fireTimer, _remove_deploy, removeCore, cancelIfActive, timerDelay,
      Timer.active, pendingTimersFor, List.filter]

/-- C2 counterexample: begin at time 0 schedules expiry at 60; a progress
event arriving at time 10 leaves the timer scheduled for 120 = 60 + 60
(postponed from its previously scheduled fire time), not 70 = 10 + 60
(`deployTTL` after the moment of the progress event), refuting the claim. -/
theorem c2_progress_not_rescheduled_from_now :
    ((onPushProgress began_s "d1" "h1" 1).timers.get? 0).map Timer.time =
      some 120 ∧
    (120 : ℚ) ≠ 10 + 60 := by
  constructor <;>
    norm_num [began_s, harold0, initialState, cfg0, onPushBegan,
      onPushProgress, progressCore, _update_topic, computeTopic, minWhen,
      dictGet, dictSet, timerDelay]

/-- C2 amended: on every progress event for a registered id, the expiry
timer's fire time becomes its previously scheduled fire time plus
`deploy_ttl` (Twisted `delay`), not `deploy_ttl` from the moment of the
event. -/
theorem c2_amended_timer_postponed_by_ttl (s : MonitorState) (id host : String)
    (index : ℚ) (d : OngoingDeploy) (tm : Timer)
    (hd : dictGet s.deploys id = some d)
    (ht : s.timers.get? d.expirator = some tm) :
    (onPushProgress s id host index).timers.get? d.expirator =
      some { tm with time := tm.time + s.config.deploy_ttl } := by
  rw [onPushProgress_of_found s id host index d hd, progressCore_timers]
  exact timerDelay_get s.timers d.expirator s.config.deploy_ttl tm ht

/-- C2 amended, witnessed on the concrete scenario of the counterexample. -/
theorem c2_amended_witness :
    dictGet began_s.deploys "d1" = some began_d ∧
    began_s.timers.get? 0 = some began_tm ∧
    (onPushProgress began_s "d1" "h1" 1).timers.get? 0 =
      some { began_tm with time := began_tm.time + began_s.config.deploy_ttl } :=
  ⟨by norm_num [began_s, began_d, harold0, initialState, cfg0, onPushBegan,
      _update_topic, computeTopic, minWhen, dictGet, dictSet],
   by norm_num [began_s, began_tm, harold0, initialState, cfg0, onPushBegan,
      _update_topic, computeTopic, minWhen, dictGet, dictSet],
   c2_amended_timer_postponed_by_ttl began_s "d1" "h1" 1 began_d began_tm
     (by norm_num [began_s, began_d, harold0, initialState, cfg0, onPushBegan,
        _update_topic, computeTopic, minWhen, dictGet, dictSet])
     (by norm_num [began_s, began_d, began_tm, harold0, initialState, cfg0,
        onPushBegan, _update_topic, computeTopic, minWhen, dictGet, dictSet])⟩

/-- C4 counterexample: with hostCount 10 and progress indices 0, 2, 5, 8, 10
in separate calls, only three announcements fire (25%, 50%, 75%), not four,
and `quadrant` ends at 4, not 5; the 100% threshold is never announced. -/
theorem c4_five_calls_three_announcements :
    countAnnouncements c4_run.messages = 3 ∧
    countAnnouncements c4_run.messages ≠ 4 ∧
    (dictGet c4_run.deploys "d1").map OngoingDeploy.quadrant = some 4 := by
  refine ⟨?_, ?_, ?_⟩ <;>
    norm_num [c4_run, began_s, harold0, initialState, cfg0, onPushBegan,
      onPushProgress, progressCore, _update_topic, computeTopic, minWhen,
      dictGet, dictSet, timerDelay, countAnnouncements, List.filter]

/-- C4 amended: the same five calls emit exactly three announcements, at
25%, 50% and 75%, in that order, with `quadrant` equal to 4 afterwards (the
100% threshold stays pending, per the single-step rule). -/
theorem c4_amended_exact_messages :
    c4_run.messages =
      [Msg.started "alice" "d1" "-a", Msg.progressPct "alice" "d1" 25,
       Msg.progressPct "alice" "d1" 50, Msg.progressPct "alice" "d1" 75] ∧
    (dictGet c4_run.deploys "d1").map OngoingDeploy.quadrant = some 4 := by
  constructor <;>
    norm_num [c4_run, began_s, harold0, initialState, cfg0, onPushBegan,
      onPushProgress, progressCore, _update_topic, computeTopic, minWhen,
      dictGet, dictSet, timerDelay]

/-- C6: progress, end and abort on an id absent from the registry return the
state unchanged: no entity mutation, no message, no topic write. -/
theorem c6_unknown_id_noop (s : MonitorState) (id host reason : String)
    (index now : ℚ) (h : dictGet s.deploys id = none) :
    onPushProgress s id host index = s ∧ onPushEnded s now id = s ∧
    onPushAborted s now id reason = s := by
  unfold onPushProgress onPushEnded onPushAborted _remove_deploy
  rw [h]
  exact ⟨rfl, rfl, rfl⟩

/-- C6 witnessed on the empty registry. -/
theorem c6_witness :
    dictGet harold0.deploys "nope" = none ∧
    (onPushProgress harold0 "nope" "h" 1 = harold0 ∧
     onPushEnded harold0 0 "nope" = harold0 ∧
     onPushAborted harold0 0 "nope" "r" = harold0) :=
  ⟨rfl, c6_unknown_id_noop harold0 "nope" "h" "r" 1 0 rfl⟩

/-- C3: for a registered deploy with at least 8 hosts, one progress call is
single-step: below the next quadrant threshold it emits nothing and leaves
`quadrant` unchanged; at or past the threshold it emits exactly one
announcement labelled `quadrant * 25` percent and increments `quadrant` by
exactly one — never catching up across skipped thresholds. -/
theorem c3_progress_single_threshold (s : MonitorState) (id host : String)
    (index : ℚ) (d : OngoingDeploy) (hd : dictGet s.deploys id = some d)
    (hc : 8 ≤ d.host_count) :
    if index / (d.host_count : ℚ) < (d.quadrant : ℚ) * (1/4) then
      (onPushProgress s id host index).messages = s.messages ∧
      dictGet (onPushProgress s id host index).deploys id =
        some { d with completion := some index, whereHost := some host }
    else
      (onPushProgress s id host index).messages =
        s.messages ++ [Msg.progressPct d.who id (d.quadrant * 25)] ∧
      dictGet (onPushProgress s id host index).deploys id =
        some { d with completion := some index, whereHost := some host,
                      quadrant := d.quadrant + 1 } := by
  rw [onPushProgress_of_found s id host index d hd]
  by_cases hq : index / (d.host_count : ℚ) < (d.quadrant : ℚ) * (1/4)
  · rw [if_pos hq]
    exact progressCore_noemit s id host index d (Or.inr hq)
  · rw [if_neg hq]
    exact progressCore_emit s id host index d (by omega) hq

/-- C3 witnessed on the claim's own scenario: hostCount 10, progress at
index 9 after a call at index 1 emits only the 25% announcement and moves
`quadrant` from 1 to 2. -/
theorem c3_witness :
    dictGet c3_s.deploys "d1" = some c3_d ∧ 8 ≤ c3_d.host_count ∧
    (onPushProgress c3_s "d1" "h1" 9).messages =
      c3_s.messages ++ [Msg.progressPct "alice" "d1" 25] ∧
    dictGet (onPushProgress c3_s "d1" "h1" 9).deploys "d1" =
      some { c3_d with completion := some 9, quadrant := 2 } := by
  have hd : dictGet c3_s.deploys "d1" = some c3_d := by
    norm_num [c3_s, c3_d, began_s, began_d, harold0, initialState, cfg0,
      onPushBegan, onPushProgress, progressCore, _update_topic, computeTopic,
      minWhen, dictGet, dictSet, timerDelay]
  have h := c3_progress_single_threshold c3_s "d1" "h1" 9 c3_d hd
    (by norm_num [c3_d, began_d])
  rw [if_neg (by norm_num [c3_d, began_d])] at h
  exact ⟨hd, by norm_num [c3_d, began_d], h.1, h.2⟩

/-- C5 counterexample: a deploy whose initiator string is empty is present
in the registry, yet `end` removes it while sending no completion message
and recomputing no topic (the `if not who` guard treats the falsy initiator
as an unknown deploy), refuting the claim's universal quantification. -/
theorem c5_empty_who_end_sends_nothing :
    dictGet emptyWho_s.deploys "d1" = some emptyWho_d ∧
    dictGet (onPushEnded emptyWho_s 5 "d1").deploys "d1" = none ∧
    (onPushEnded emptyWho_s 5 "d1").messages = emptyWho_s.messages ∧
    (onPushEnded emptyWho_s 5 "d1").topics = emptyWho_s.topics := by
  refine ⟨?_, ?_, ?_, ?_⟩ <;>
    norm_num [emptyWho_s, emptyWho_d, began_d, harold0, initialState, cfg0,
      onPushBegan, onPushEnded, _remove_deploy, removeCore, cancelIfActive,
      _update_topic, computeTopic, minWhen, dictGet, dictSet, dictDel,
      Timer.active]

/-- C5 amended: for a registered deploy with a non-empty initiator (and a
duplicate-free registry, under the monotone clock `d.when ≤ now`), `end`
cancels the timer, removes the entity, sends exactly one completion message
carrying `now - startedAt ≥ 0`, and recomputes the topic; likewise `abort`
with the abort message. -/
theorem c5_amended_end_abort (s : MonitorState) (id reason : String)
    (now : ℚ) (d : OngoingDeploy) (hd : dictGet s.deploys id = some d)
    (hwho : ¬ d.who = "") (hnodup : (s.deploys.map Prod.fst).Nodup)
    (hwhen : d.when ≤ now) :
    dictGet (onPushEnded s now id).deploys id = none ∧
    (onPushEnded s now id).messages =
      s.messages ++ [Msg.complete d.who id (now - d.when)] ∧
    (∃ tp, (onPushEnded s now id).topics = s.topics ++ [tp]) ∧
    0 ≤ now - d.when ∧
    (∀ tm, (onPushEnded s now id).timers.get? d.expirator = some tm →
      tm.active = false) ∧
    dictGet (onPushAborted s now id reason).deploys id = none ∧
    (onPushAborted s now id reason).messages =
      s.messages ++ [Msg.aborted d.who id reason] ∧
    (∃ tp, (onPushAborted s now id reason).topics = s.topics ++ [tp]) ∧
    (∀ tm, (onPushAborted s now id reason).timers.get? d.expirator = some tm →
      tm.active = false) := by
  have hE : onPushEnded s now id =
      _update_topic
        { s with timers := cancelIfActive s.timers d.expirator,
                 deploys := dictDel s.deploys id,
                 messages :=
                   s.messages ++ [Msg.complete d.who id (now - d.when)] } := by
    unfold onPushEnded _remove_deploy
    rw [hd]
    unfold removeCore
    dsimp only
    rw [if_neg hwho]
  have hA : onPushAborted s now id reason =
      _update_topic
        { s with timers := cancelIfActive s.timers d.expirator,
                 deploys := dictDel s.deploys id,
                 messages :=
                   s.messages ++ [Msg.aborted d.who id reason] } := by
    unfold onPushAborted _remove_deploy
    rw [hd]
    unfold removeCore
    dsimp only
    rw [if_neg hwho]
  rw [hE, hA]
  exact ⟨dictGet_dictDel_self s.deploys id hnodup, rfl, ⟨_, rfl⟩,
    sub_nonneg.mpr hwhen,
    fun tm htm => cancelIfActive_get s.timers d.expirator tm htm,
    dictGet_dictDel_self s.deploys id hnodup, rfl, ⟨_, rfl⟩,
    fun tm htm => cancelIfActive_get s.timers d.expirator tm htm⟩

/-- C5 amended, witnessed on begin("d1", "alice") at 0 then end/abort at 5. -/
theorem c5_amended_witness :
    dictGet began_s.deploys "d1" = some began_d ∧ ¬ began_d.who = "" ∧
    (began_s.deploys.map Prod.fst).Nodup ∧ began_d.when ≤ (5 : ℚ) ∧
    (dictGet (onPushEnded began_s 5 "d1").deploys "d1" = none ∧
     (onPushEnded began_s 5 "d1").messages =
       began_s.messages ++ [Msg.complete began_d.who "d1" (5 - began_d.when)] ∧
     (∃ tp, (onPushEnded began_s 5 "d1").topics = began_s.topics ++ [tp]) ∧
     0 ≤ (5 : ℚ) - began_d.when ∧
     (∀ tm, (onPushEnded began_s 5 "d1").timers.get? began_d.expirator =
        some tm → tm.active = false) ∧
     dictGet (onPushAborted began_s 5 "d1" "r").deploys "d1" = none ∧
     (onPushAborted began_s 5 "d1" "r").messages =
       began_s.messages ++ [Msg.aborted began_d.who "d1" "r"] ∧
     (∃ tp, (onPushAborted began_s 5 "d1" "r").topics =
        began_s.topics ++ [tp]) ∧
     (∀ tm, (onPushAborted began_s 5 "d1" "r").timers.get? began_d.expirator =
        some tm → tm.active = false)) := by
  have hd : dictGet began_s.deploys "d1" = some began_d := by
    norm_num [began_s, began_d, harold0, initialState, cfg0, onPushBegan,
      _update_topic, computeTopic, minWhen, dictGet, dictSet]
  have hwho : ¬ began_d.who = "" := by decide
  have hnodup : (began_s.deploys.map Prod.fst).Nodup := by
    simp [began_s, harold0, initialState, cfg0, onPushBegan, _update_topic,
      computeTopic, dictSet]
  have hwhen : began_d.when ≤ (5 : ℚ) := by norm_num [began_d]
  exact ⟨hd, hwho, hnodup, hwhen,
    c5_amended_end_abort began_s "d1" "r" 5 began_d hd hwho hnodup hwhen⟩

/-- C7: timer-driven expiry marks the timer called, removes the entity whose
id the timer targets, and performs no sink write at all — no message, no
topic; and progress never writes a topic either, so `setTopic` happens only
on the begin, end and abort paths. -/
theorem c7_expiry_silent (s : MonitorState) (k : Nat) (now index : ℚ)
    (id host : String) (t : Timer) (ht : s.timers.get? k = some t)
    (hact : t.active = true) :
    (fireTimer s k now).messages = s.messages ∧
    (fireTimer s k now).topics = s.topics ∧
    (fireTimer s k now).deploys = dictDel s.deploys t.deployId ∧
    (onPushProgress s id host index).topics = s.topics := by
  have hf : fireTimer s k now =
      (_remove_deploy
        { s with timers := s.timers.set k { t with called := true } }
        t.deployId now).1 := by
    unfold fireTimer
    rw [ht]
    dsimp only
    rw [if_pos hact]
  refine ⟨?_, ?_, ?_, ?_⟩
  · rw [hf]
    exact _remove_deploy_messages _ _ _
  · rw [hf]
    exact _remove_deploy_topics _ _ _
  · rw [hf]
    exact _remove_deploy_deploys
      { s with timers := s.timers.set k { t with called := true } }
      t.deployId now
  · cases hdg : dictGet s.deploys id with
    | none =>
        unfold onPushProgress
        rw [hdg]
    | some d =>
        rw [onPushProgress_of_found s id host index d hdg]
        exact progressCore_topics s id host index d

/-- C7 witnessed by firing the TTL timer of a freshly begun deploy. -/
theorem c7_witness :
    began_s.timers.get? 0 = some began_tm ∧ began_tm.active = true ∧
    ((fireTimer began_s 0 100).messages = began_s.messages ∧
     (fireTimer began_s 0 100).topics = began_s.topics ∧
     (fireTimer began_s 0 100).deploys =
       dictDel began_s.deploys began_tm.deployId ∧
     (onPushProgress began_s "d1" "h1" 2).topics = began_s.topics) := by
  have ht : began_s.timers.get? 0 = some began_tm := by
    norm_num [began_s, began_tm, harold0, initialState, cfg0, onPushBegan,
      _update_topic, computeTopic, minWhen, dictGet, dictSet]
  have ha : began_tm.active = true := by decide
  exact ⟨ht, ha, c7_expiry_silent began_s 0 100 2 "d1" "h1" began_tm ht ha⟩

/-- C8 counterexample: the reachable state `c8_s2` (begin with hostCount 0,
then one progress event) makes the status query fail with a
`ZeroDivisionError` computing `float(completion) / host_count`, refuting
"the status query never fails for any reachable registry state". -/
theorem c8_status_zero_division :
    dictGet c8_s2.deploys "d1" ≠ none ∧
    status c8_s2 "bob!u@h" "#chan" = Except.error "ZeroDivisionError" := by
  constructor
  · decide
  · rfl

/-- C8 amended: begin, progress, end, abort and expiry are total on
well-typed inputs, and the status query completes normally provided every
deploy with a truthy recorded host also has a recorded index and a non-zero
`host_count`; it fails (ZeroDivisionError) exactly on the hostCount-0-with-
progress states exhibited in the counterexample. -/
theorem c8_amended_status_total (s : MonitorState) (sender channel : String)
    (h : ∀ d ∈ s.deploys.map Prod.snd,
      strTruthy d.whereHost = true → d.completion ≠ none ∧ d.host_count ≠ 0) :
    ∃ lines, status s sender channel = Except.ok lines := by
  unfold status
  by_cases hch : channel ≠ s.config.channel
  · rw [if_pos hch]
    exact ⟨[], rfl⟩
  · rw [if_neg hch]
    dsimp only
    obtain ⟨bs, hbs⟩ :=
      mapExcept_ok (statusLineFor (sender.takeWhile (fun c => c != '!')))
        (sortByWhen (s.deploys.map Prod.snd))
        (fun a ha =>
          statusLineFor_ok _ a (h a (mem_of_mem_sortByWhen _ a ha)))
    rw [hbs]
    exact ⟨_, rfl⟩

/-- C8 amended, witnessed on a registry holding a hostCount-0 deploy that
has received no progress event: status still succeeds there. -/
theorem c8_amended_witness :
    (∀ d ∈ c8_s1.deploys.map Prod.snd,
      strTruthy d.whereHost = true → d.completion ≠ none ∧ d.host_count ≠ 0) ∧
    ∃ lines, status c8_s1 "bob!u@h" "#chan" = Except.ok lines := by
  have h : ∀ d ∈ c8_s1.deploys.map Prod.snd,
      strTruthy d.whereHost = true → d.completion ≠ none ∧ d.host_count ≠ 0 := by
    norm_num [c8_s1, harold0, initialState, cfg0, onPushBegan, _update_topic,
      computeTopic, minWhen, dictGet, dictSet, strTruthy]
  exact ⟨h, c8_amended_status_total c8_s1 "bob!u@h" "#chan" h⟩

/-- C9 counterexample: `nextQuadrant` is not capped in effect for every real
index — after reaching quadrant 5 (hostCount 10, indices 3, 5, 8, 10), a
further progress call at index 13 (percent 130% ≥ 125%) emits another
announcement, labelled 125%. -/
theorem c9_announcement_past_quadrant_four :
    (dictGet c9_b.deploys "d9").map OngoingDeploy.quadrant = some 5 ∧
    (onPushProgress c9_b "d9" "h" 13).messages =
      c9_b.messages ++ [Msg.progressPct "alice" "d9" 125] := by
  constructor <;>
    norm_num [c9_b, harold0, initialState, cfg0, onPushBegan, onPushProgress,
      progressCore, _update_topic, computeTopic, minWhen, dictGet, dictSet,
      timerDelay]

/-- C9 amended: `quadrant` starts at 1 on begin and never decreases under
progress; once it exceeds 4, no further announcement fires for any index not
exceeding `hostCount` (i.e. for any percent ≤ 100%); indices beyond
`hostCount` can still trigger announcements, per the counterexample. -/
theorem c9_amended_quadrant_behavior :
    (∀ (s : MonitorState) (now : ℚ) (id who args log_path : String)
        (count : Nat),
      (dictGet (onPushBegan s now id who args log_path count).deploys id).map
        OngoingDeploy.quadrant = some 1) ∧
    (∀ (s : MonitorState) (id host : String) (index : ℚ)
        (d d' : OngoingDeploy),
      dictGet s.deploys id = some d →
      dictGet (onPushProgress s id host index).deploys id = some d' →
      d.quadrant ≤ d'.quadrant) ∧
    (∀ (s : MonitorState) (id host : String) (index : ℚ) (d : OngoingDeploy),
      dictGet s.deploys id = some d → 5 ≤ d.quadrant →
      index ≤ (d.host_count : ℚ) →
      (onPushProgress s id host index).messages = s.messages) := by
  refine ⟨?_, ?_, ?_⟩
  · intro s now id who args log_path count
    unfold onPushBegan _update_topic
    dsimp only
    rw [dictGet_dictSet_self]
    rfl
  · intro s id host index d d' hd hd'
    rw [onPushProgress_of_found s id host index d hd] at hd'
    by_cases h8 : d.host_count < 8
    · rw [(progressCore_noemit s id host index d (Or.inl h8)).2] at hd'
      injection hd' with h
      subst h
      exact le_refl _
    · by_cases hq : index / (d.host_count : ℚ) < (d.quadrant : ℚ) * (1/4)
      · rw [(progressCore_noemit s id host index d (Or.inr hq)).2] at hd'
        injection hd' with h
        subst h
        exact le_refl _
      · rw [(progressCore_emit s id host index d h8 hq).2] at hd'
        injection hd' with h
        subst h
        exact Nat.le_succ _
  · intro s id host index d hd h5 hle
    rw [onPushProgress_of_found s id host index d hd]
    by_cases h8 : d.host_count < 8
    · exact (progressCore_noemit s id host index d (Or.inl h8)).1
    · have hpos : (0 : ℚ) < (d.host_count : ℚ) := by
        have h0 : 0 < d.host_count := by omega
        exact_mod_cast h0
      have h1 : index / (d.host_count : ℚ) ≤ 1 := by
        rw [div_le_one hpos]
        exact hle
      have h5q : (5 : ℚ) ≤ (d.quadrant : ℚ) := by exact_mod_cast h5
      have hq : index / (d.host_count : ℚ) < (d.quadrant : ℚ) * (1/4) := by
        linarith
      exact (progressCore_noemit s id host index d (Or.inr hq)).1

/-- C9 amended, witnessed: a fresh begin has quadrant 1; a progress call on
the quadrant-5 deploy at index 10 (percent 100%) keeps quadrant 5 and emits
nothing. -/
theorem c9_amended_witness :
    ((dictGet (onPushBegan harold0 0 "x" "w" "a" "l" 9).deploys "x").map
        OngoingDeploy.quadrant = some 1) ∧
    (dictGet c9_b.deploys "d9" = some c9_d ∧
     dictGet (onPushProgress c9_b "d9" "h" 10).deploys "d9" = some c9_d ∧
     c9_d.quadrant ≤ c9_d.quadrant) ∧
    (5 ≤ c9_d.quadrant ∧ (10 : ℚ) ≤ (c9_d.host_count : ℚ) ∧
     (onPushProgress c9_b "d9" "h" 10).messages = c9_b.messages) := by
  have hd : dictGet c9_b.deploys "d9" = some c9_d := by
    norm_num [c9_b, c9_d, harold0, initialState, cfg0, onPushBegan,
      onPushProgress, progressCore, _update_topic, computeTopic, minWhen,
      dictGet, dictSet, timerDelay]
  have hd2 : dictGet (onPushProgress c9_b "d9" "h" 10).deploys "d9" =
      some c9_d := by
    norm_num [c9_b, c9_d, harold0, initialState, cfg0, onPushBegan,
      onPushProgress, progressCore, _update_topic, computeTopic, minWhen,
      dictGet, dictSet, timerDelay]
  refine ⟨c9_amended_quadrant_behavior.1 harold0 0 "x" "w" "a" "l" 9,
    ⟨hd, hd2,
      c9_amended_quadrant_behavior.2.1 c9_b "d9" "h" 10 c9_d c9_d hd hd2⟩,
    by decide, by norm_num [c9_d],
    c9_amended_quadrant_behavior.2.2 c9_b "d9" "h" 10 c9_d hd (by decide)
      (by norm_num [c9_d])⟩

/-- C10: when the live entity's initiator string is empty, end and abort
cancel the timer and remove the entity but send no message and write no
topic: the `if not who` guard treats the falsy initiator like an unknown
deploy, so removal is not always accompanied by a notification. -/
theorem c10_empty_who_silent_removal (s : MonitorState) (id reason : String)
    (now : ℚ) (d : OngoingDeploy) (hd : dictGet s.deploys id = some d)
    (hwho : d.who = "") :
    onPushEnded s now id =
      { s with timers := cancelIfActive s.timers d.expirator,
               deploys := dictDel s.deploys id } ∧
    onPushAborted s now id reason =
      { s with timers := cancelIfActive s.timers d.expirator,
               deploys := dictDel s.deploys id } := by
  constructor
  · unfold onPushEnded _remove_deploy
    rw [hd]
    unfold removeCore
    dsimp only
    rw [if_pos hwho]
  · unfold onPushAborted _remove_deploy
    rw [hd]
    unfold removeCore
    dsimp only
    rw [if_pos hwho]

/-- C10 witnessed on a begin with an empty initiator followed by end/abort. -/
theorem c10_witness :
    dictGet emptyWho_s.deploys "d1" = some emptyWho_d ∧ emptyWho_d.who = "" ∧
    (onPushEnded emptyWho_s 5 "d1" =
      { emptyWho_s with
          timers := cancelIfActive emptyWho_s.timers emptyWho_d.expirator,
          deploys := dictDel emptyWho_s.deploys "d1" } ∧
     onPushAborted emptyWho_s 5 "d1" "r" =
      { emptyWho_s with
          timers := cancelIfActive emptyWho_s.timers emptyWho_d.expirator,
          deploys := dictDel emptyWho_s.deploys "d1" }) := by
  have hd : dictGet emptyWho_s.deploys "d1" = some emptyWho_d := by
    norm_num [emptyWho_s, emptyWho_d, began_d, harold0, initialState, cfg0,
      onPushBegan, _update_topic, computeTopic, minWhen, dictGet, dictSet]
  exact ⟨hd, rfl,
    c10_empty_who_silent_removal emptyWho_s "d1" "r" 5 emptyWho_d hd rfl⟩
